import Mathlib

/-!
Verification of `parse-paperless-manifest` (src/src/main.rs).

The program reads a paperless-ngx export manifest (a JSON array of records),
builds tag / correspondent / document tables, skips documents carrying
certain tags, and plans one canonical copy plus by-year / by-correspondent /
by-tag link destinations per remaining document.

The embedding below mirrors the source: JSON values as `serde_json::Value`
(integer numbers only, which is all the program reads via `as_i64`),
`chrono`'s RFC 3339 parsing and UTC year extraction modelled with civil
calendar arithmetic, the record loop as a fold, and the side-effecting
processing loop as a function producing an explicit trace of filesystem and
print effects together with the two counters.
-/

namespace Paperless

/-- JSON values as `serde_json::Value` represents them.  Numbers are modelled
as integers: the program only ever reads numbers through `as_i64`. -/
inductive Json where
  | null : Json
  | bool (b : Bool) : Json
  | num (n : Int) : Json
  | str (s : String) : Json
  | arr (elems : List Json) : Json
  | obj (entries : List (String × Json)) : Json

/-- `serde_json` indexing `value[key]`: yields the entry when `value` is an
object containing `key`, and `Null` otherwise (missing key or non-object). -/
def Json.get (j : Json) (k : String) : Json :=
  match j with
  | .obj entries => ((entries.find? (fun p => p.1 == k)).map Prod.snd).getD Json.null
  | _ => Json.null

/-- `Value::as_i64`. -/
def Json.as_i64 : Json → Option Int
  | .num n => some n
  | _ => none

/-- `Value::as_str`. -/
def Json.as_str : Json → Option String
  | .str s => some s
  | _ => none

/-- `Value::as_array`. -/
def Json.as_array : Json → Option (List Json)
  | .arr l => some l
  | _ => none

/-- `Value::as_object` (the entry list of the map). -/
def Json.as_object : Json → Option (List (String × Json))
  | .obj entries => some entries
  | _ => none

/-- Whether a JSON value is an object carrying the given key. -/
def Json.hasKey (j : Json) (k : String) : Bool :=
  match j with
  | .obj entries => entries.any (fun p => p.1 == k)
  | _ => false

/-! Calendar arithmetic modelling `chrono`: days-from-civil and
civil-from-days (Gregorian, proleptic), used for RFC 3339 parsing and for
`Datelike::year()` on a `DateTime<Utc>`. -/

/-- Days since 1970-01-01 of the civil date `y-m-d` (proleptic Gregorian). -/
def daysFromCivil (y m d : Int) : Int :=
  let y := if m ≤ 2 then y - 1 else y
  let era := Int.fdiv y 400
  let yoe := y - era * 400
  let mp := Int.emod (m + 9) 12
  let doy := Int.fdiv (153 * mp + 2) 5 + d - 1
  let doe := yoe * 365 + Int.fdiv yoe 4 - Int.fdiv yoe 100 + doy
  era * 146097 + doe - 719468

/-- Civil year of the day `z` (days since 1970-01-01, proleptic Gregorian). -/
def civilYearFromDays (z0 : Int) : Int :=
  let z := z0 + 719468
  let era := Int.fdiv z 146097
  let doe := z - era * 146097
  let yoe := Int.fdiv (doe - Int.fdiv doe 1460 + Int.fdiv doe 36524 - Int.fdiv doe 146096) 365
  let y := yoe + era * 400
  let doy := doe - (365 * yoe + Int.fdiv yoe 4 - Int.fdiv yoe 100)
  let mp := Int.fdiv (5 * doy + 2) 153
  let m := mp + (if mp < 10 then 3 else -9)
  y + (if m ≤ 2 then 1 else 0)

def isLeapYear (y : Nat) : Bool :=
  (y % 4 == 0 && y % 100 != 0) || y % 400 == 0

def daysInMonth (y m : Nat) : Nat :=
  if m = 2 then (if isLeapYear y then 29 else 28)
  else if m = 4 ∨ m = 6 ∨ m = 9 ∨ m = 11 then 30
  else 31

/-- `chrono::DateTime<FixedOffset>`: an absolute instant (seconds since the
Unix epoch) together with the parsed offset. -/
structure DateTimeFixed where
  secs : Int
  offsetMinutes : Int
deriving Repr, DecidableEq

/-- `chrono::DateTime<Utc>`: an absolute instant in seconds since the epoch. -/
structure DateTimeUtc where
  secs : Int
deriving Repr, DecidableEq

/-- The `Into<DateTime<Utc>>` conversion: same instant, offset dropped. -/
def DateTimeFixed.toUtc (d : DateTimeFixed) : DateTimeUtc :=
  ⟨d.secs⟩

/-- `Datelike::year()` of a `DateTime<Utc>`. -/
def DateTimeUtc.year (d : DateTimeUtc) : Int :=
  civilYearFromDays (Int.fdiv d.secs 86400)

/-- Read exactly `n` decimal digits as a number. -/
def readFixedNat : Nat → List Char → Option (Nat × List Char)
  | 0, cs => some (0, cs)
  | _ + 1, [] => none
  | n + 1, c :: cs =>
    if c.isDigit then
      match readFixedNat n cs with
      | none => none
      | some (v, rest) => some ((c.toNat - 48) * 10 ^ n + v, rest)
    else none

def expectChar (c : Char) : List Char → Option (List Char)
  | [] => none
  | c' :: cs => if c' = c then some cs else none

/-- Optional fractional seconds: a dot must be followed by at least one
digit; the fraction itself is discarded (the program never reads it). -/
def skipFraction : List Char → Option (List Char)
  | '.' :: cs =>
    if (cs.takeWhile Char.isDigit).isEmpty then none
    else some (cs.dropWhile Char.isDigit)
  | cs => some cs

/-- An `hh:mm` pair, range-checked, as a minute count. -/
def readHourMinute (cs : List Char) : Option (Int × List Char) := do
  let (h, cs) ← readFixedNat 2 cs
  let cs ← expectChar ':' cs
  let (m, cs) ← readFixedNat 2 cs
  if h ≤ 23 ∧ m ≤ 59 then some (((h * 60 + m : Nat) : Int), cs) else none

/-- RFC 3339 numeric offset or `Z`/`z`, in minutes. -/
def parseOffsetMinutes : List Char → Option (Int × List Char)
  | 'Z' :: cs => some (0, cs)
  | 'z' :: cs => some (0, cs)
  | '+' :: cs => readHourMinute cs
  | '-' :: cs => (readHourMinute cs).map (fun p => (-p.1, p.2))
  | _ => none

/-- `chrono::DateTime::parse_from_rfc3339`, modelled for the grammar
`YYYY-MM-DDTHH:MM:SS[.frac](Z|+hh:mm|-hh:mm)` with calendar validation. -/
def parse_from_rfc3339 (s : String) : Option DateTimeFixed := do
  let cs := s.toList
  let (y, cs) ← readFixedNat 4 cs
  let cs ← expectChar '-' cs
  let (mo, cs) ← readFixedNat 2 cs
  let cs ← expectChar '-' cs
  let (d, cs) ← readFixedNat 2 cs
  let cs ← match cs with
    | c :: rest => if c = 'T' ∨ c = 't' ∨ c = ' ' then some rest else none
    | [] => none
  let (h, cs) ← readFixedNat 2 cs
  let cs ← expectChar ':' cs
  let (mi, cs) ← readFixedNat 2 cs
  let cs ← expectChar ':' cs
  let (sec, cs) ← readFixedNat 2 cs
  let cs ← skipFraction cs
  let (offMin, cs) ← parseOffsetMinutes cs
  if cs = [] ∧ 1 ≤ mo ∧ mo ≤ 12 ∧ 1 ≤ d ∧ d ≤ daysInMonth y mo ∧ h ≤ 23 ∧ mi ≤ 59 ∧ sec ≤ 59 then
    some ⟨daysFromCivil (y : Int) (mo : Int) (d : Int) * 86400
            + ((h * 3600 + mi * 60 + sec : Nat) : Int) - offMin * 60,
          offMin⟩
  else none

/-! The entity model (`struct Tag`, `struct Correspondent`, `struct Document`). -/

structure Tag where
  pk : Int
  name : String
deriving Repr, DecidableEq

structure Correspondent where
  pk : Int
  name : String
deriving Repr, DecidableEq

structure Document where
  pk : Int
  file_name : String
  archive_name : String
  created : DateTimeUtc
  correspondent : Option Correspondent
  tags : List Tag
deriving Repr, DecidableEq

/-- The three `HashMap`s, modelled as association lists with distinct keys
(insertion overwrites in place). -/
structure Tables where
  tags : List (Int × Tag)
  correspondents : List (Int × Correspondent)
  documents : List (Int × Document)
deriving Repr, DecidableEq

def emptyTables : Tables := ⟨[], [], []⟩

/-- `HashMap::insert`: overwrite the entry for `k` if present, else add it. -/
def insertA {α : Type} (k : Int) (v : α) : List (Int × α) → List (Int × α)
  | [] => [(k, v)]
  | (k', v') :: rest => if k = k' then (k, v) :: rest else (k', v') :: insertA k v rest

/-- `HashMap::get`. -/
def lookupA {α : Type} (l : List (Int × α)) (k : Int) : Option α :=
  (l.find? (fun p => p.1 == k)).map Prod.snd

/-- `fields.iter().find(|&(k, _)| k == key)`, keeping the value. -/
def findField (flds : List (String × Json)) (k : String) : Option Json :=
  (flds.find? (fun p => p.1 == k)).map Prod.snd

/-! The manifest parse loop (lines 48-130 of main.rs).  Each `unwrap` /
`expect` panic is modelled as an `Except.error` carrying the panic message. -/

/-- The `"documents.tag"` arm: extract the `name` field. -/
def parseTagRecord (pk : Int) (flds : List (String × Json)) : Except String Tag :=
  match findField flds "name" with
  | none => Except.error "tag has name"
  | some nameJson =>
    match nameJson.as_str with
    | none => Except.error "tag name as_str unwrap"
    | some name => Except.ok { pk := pk, name := name }

/-- The `"documents.correspondent"` arm: extract the `name` field. -/
def parseCorrespondentRecord (pk : Int) (flds : List (String × Json)) :
    Except String Correspondent :=
  match findField flds "name" with
  | none => Except.error "correspondent has name"
  | some nameJson =>
    match nameJson.as_str with
    | none => Except.error "correspondent name as_str unwrap"
    | some name => Except.ok { pk := pk, name := name }

/-- `tags_obj.iter().map(|t| tags.get(&t.as_i64().unwrap()).unwrap())`:
each tag reference must be an integer resolving in the tag table. -/
def resolveTags (tags : List (Int × Tag)) : List Json → Except String (List Tag)
  | [] => Except.ok []
  | t :: rest =>
    match t.as_i64 with
    | none => Except.error "tag ref as_i64 unwrap"
    | some tpk =>
      match lookupA tags tpk with
      | none => Except.error "tag lookup unwrap"
      | some tag =>
        match resolveTags tags rest with
        | .error e => Except.error e
        | .ok l => Except.ok (tag :: l)

/-- The `"documents.document"` arm (lines 80-126): the extraction order and
the panic messages mirror the source, including its reuse of the message
"created has str value" on the correspondent `as_i64` expect. -/
def parseDocumentRecord (ts : Tables) (r : Json) (pk : Int)
    (flds : List (String × Json)) : Except String Document :=
  match findField flds "created" with
  | none => Except.error "doc has created"
  | some createdJson =>
  match createdJson.as_str with
  | none => Except.error "created has str value"
  | some createdStr =>
  match parse_from_rfc3339 createdStr with
  | none => Except.error "has rfc3339 date"
  | some created =>
  match findField flds "correspondent" with
  | none => Except.error "doc has correspondent"
  | some corrJson =>
  match corrJson.as_i64 with
  | none => Except.error "created has str value"
  | some correspondent =>
  match findField flds "tags" with
  | none => Except.error "doc has tags"
  | some tagsJson =>
  match tagsJson.as_array with
  | none => Except.error "tags has array value"
  | some tags_obj =>
  match (r.get "__exported_file_name__").as_str with
  | none => Except.error "exported_file_name as_str unwrap"
  | some file_name =>
  match resolveTags ts.tags tags_obj with
  | .error e => Except.error e
  | .ok tagList =>
    Except.ok
      { pk := pk
        file_name := file_name
        archive_name := ((r.get "__exported_archive_name__").as_str).getD file_name
        created := created.toUtc
        correspondent := lookupA ts.correspondents correspondent
        tags := tagList }

/-- One iteration of the record loop: extract `pk`, `fields` and `model`
(in that order, all mandatory), then dispatch on the model discriminator;
unrecognized discriminators leave the tables unchanged. -/
def stepRecord (ts : Tables) (r : Json) : Except String Tables :=
  match (r.get "pk").as_i64 with
  | none => Except.error "pk as_i64 unwrap"
  | some pk =>
  match (r.get "fields").as_object with
  | none => Except.error "fields as_object unwrap"
  | some flds =>
  match (r.get "model").as_str with
  | none => Except.error "model as_str unwrap"
  | some model =>
    if model = "documents.tag" then
      match parseTagRecord pk flds with
      | .error e => Except.error e
      | .ok tag => Except.ok { ts with tags := insertA pk tag ts.tags }
    else if model = "documents.correspondent" then
      match parseCorrespondentRecord pk flds with
      | .error e => Except.error e
      | .ok c => Except.ok { ts with correspondents := insertA pk c ts.correspondents }
    else if model = "documents.document" then
      match parseDocumentRecord ts r pk flds with
      | .error e => Except.error e
      | .ok doc => Except.ok { ts with documents := insertA pk doc ts.documents }
    else
      Except.ok ts

/-- The record loop over the manifest array, in sequence. -/
def parseSeq : List Json → Tables → Except String Tables
  | [], ts => Except.ok ts
  | r :: rest, ts =>
    match stepRecord ts r with
    | .error e => Except.error e
    | .ok ts' => parseSeq rest ts'

/-- `objects.as_array().unwrap()` followed by the record loop, starting from
the three empty tables. -/
def parseManifest (j : Json) : Except String Tables :=
  match j.as_array with
  | none => Except.error "as_array unwrap"
  | some l => parseSeq l emptyTables

/-- The tables after the (optional) manifest read: a missing manifest file
(`File::open` fails) leaves the three freshly-created empty tables. -/
def runTables (manifest : Option Json) : Except String Tables :=
  match manifest with
  | none => Except.ok emptyTables
  | some j => parseManifest j

/-! The processing loop (lines 132-193), as an explicit effect trace. -/

def root_dir : String := "C:\\repos\\paperless-ngx\\docker\\compose\\export\\"

/-- A path built by `path_from_root!`: the root followed by the pushed
components. -/
def path_from_root (parts : List String) : List String :=
  root_dir :: parts

/-- The filesystem / stdout effects the program performs, in order. -/
inductive Eff where
  | removeDirAll (path : String) : Eff
  | createDirAllParent (path : List String) : Eff
  | copyFile (src dst : List String) : Eff
  | symlinkFile (original link : List String) : Eff
  | printLine (line : String) : Eff
deriving Repr, DecidableEq

/-- Rust's `str::ends_with` for a string pattern: suffix match. -/
def ends_with (s suffix : String) : Bool :=
  suffix.toList.isSuffixOf s.toList

/-- `tags_str`: the document's tag names, in tag order. -/
def tags_str (d : Document) : List String :=
  d.tags.map Tag.name

/-- The skip condition of lines 137-140: some tag name is exactly `fine`,
`legal` or `private`, or ends with `2`. -/
def shouldSkip (d : Document) : Bool :=
  (tags_str d).any (fun t => ["fine", "legal", "private"].contains t || ends_with t "2")

/-- The diagnostic printed for a skipped document. -/
def skipLine (d : Document) : String :=
  "skipping " ++ d.archive_name ++ " (" ++ String.intercalate ", " (d.tags.map Tag.name) ++ ")"

/-- The final summary line. -/
def summaryLine (numCopied numSkipped : Nat) : String :=
  "copied " ++ toString numCopied ++ " files, " ++ toString numSkipped ++ " were skipped."

/-- One loop iteration: the effects it performs, and the increments to
`num_copied` and `num_skipped`. -/
def processDoc (d : Document) : List Eff × Nat × Nat :=
  if shouldSkip d then
    ([Eff.printLine (skipLine d)], 0, 1)
  else
    ([Eff.createDirAllParent (path_from_root ["files", d.archive_name]),
      Eff.createDirAllParent
        (path_from_root ["by_year", toString d.created.year, d.archive_name]),
      Eff.createDirAllParent
        (path_from_root ["by_correspondent",
          (d.correspondent.map Correspondent.name).getD "dummy", d.archive_name]),
      Eff.copyFile (path_from_root [d.archive_name]) (path_from_root ["files", d.archive_name]),
      Eff.symlinkFile (path_from_root ["files", d.archive_name])
        (path_from_root ["by_year", toString d.created.year, d.archive_name]),
      Eff.symlinkFile (path_from_root ["files", d.archive_name])
        (path_from_root ["by_correspondent",
          (d.correspondent.map Correspondent.name).getD "dummy", d.archive_name])]
     ++ d.tags.flatMap (fun t =>
          [Eff.createDirAllParent (path_from_root ["by_tag", t.name, d.archive_name]),
           Eff.symlinkFile (path_from_root ["files", d.archive_name])
             (path_from_root ["by_tag", t.name, d.archive_name])]),
     1, 0)

/-- The whole `for (_, doc) in documents` loop. -/
def processDocs : List (Int × Document) → List Eff × Nat × Nat
  | [] => ([], 0, 0)
  | kv :: rest =>
    let step := processDoc kv.2
    let acc := processDocs rest
    (step.1 ++ acc.1, step.2.1 + acc.2.1, step.2.2 + acc.2.2)

/-- Lines 36-38: the four destination trees are recursively removed before
anything else happens (`format!` appends a separator to the root, which
already ends in one). -/
def wipeEffects : List Eff :=
  ["files", "by_tag", "by_year", "by_correspondent"].map
    (fun kind => Eff.removeDirAll (root_dir ++ "\\" ++ kind))

/-- The whole run: wipe, read + parse the manifest (a parse panic aborts with
only the wipe effects performed), process every document, print the summary. -/
def run (manifest : Option Json) : List Eff × Except String Unit :=
  match runTables manifest with
  | .error e => (wipeEffects, Except.error e)
  | .ok ts =>
    (wipeEffects ++ (processDocs ts.documents).1
       ++ [Eff.printLine (summaryLine (processDocs ts.documents).2.1
             (processDocs ts.documents).2.2)],
     Except.ok ())

/-! Derived views of an effect trace, used to state the planning claims. -/

/-- The destinations of the physical copy operations in a trace. -/
def copyDests (effs : List Eff) : List (List String) :=
  effs.filterMap (fun e =>
    match e with
    | .copyFile _ dst => some dst
    | _ => none)

/-- The link paths of the symlink operations in a trace. -/
def symlinkLinks (effs : List Eff) : List (List String) :=
  effs.filterMap (fun e =>
    match e with
    | .symlinkFile _ lnk => some lnk
    | _ => none)

/-- A record missing one of the three mandatory top-level attributes:
an integer `pk`, an object `fields`, a string `model`. -/
def badTriple (r : Json) : Prop :=
  (r.get "pk").as_i64 = none ∨ (r.get "fields").as_object = none
    ∨ (r.get "model").as_str = none

/-- The `HashMap` key invariant: each table's primary keys are distinct. -/
abbrev TablesWF (ts : Tables) : Prop :=
  (ts.tags.map Prod.fst).Nodup ∧ (ts.correspondents.map Prod.fst).Nodup
    ∧ (ts.documents.map Prod.fst).Nodup

/-! Concrete inputs: the spec's concrete scenario records (section 8 of the
spec) and already-parsed documents, used as witnesses and counterexamples. -/

def tagRecord1 : Json :=
  .obj [("model", .str "documents.tag"), ("pk", .num 1),
        ("fields", .obj [("name", .str "legal")])]

def doc10Record : Json :=
  .obj [("model", .str "documents.document"), ("pk", .num 10),
        ("__exported_file_name__", .str "a.pdf"),
        ("fields", .obj [("created", .str "2021-06-01T00:00:00Z"),
                         ("correspondent", .num 5), ("tags", .arr [.num 2])])]

/-- The spec's scenario record `Document pk=11` with a null correspondent. -/
def doc11Record : Json :=
  .obj [("model", .str "documents.document"), ("pk", .num 11),
        ("__exported_file_name__", .str "b.pdf"),
        ("fields", .obj [("created", .str "2022-01-01T00:00:00Z"),
                         ("correspondent", .null), ("tags", .arr [.num 1])])]

/-- A document record referencing tag pk 99, which no tag record defines. -/
def doc99Record : Json :=
  .obj [("model", .str "documents.document"), ("pk", .num 10),
        ("__exported_file_name__", .str "a.pdf"),
        ("fields", .obj [("created", .str "2021-06-01T00:00:00Z"),
                         ("correspondent", .num 5), ("tags", .arr [.num 99])])]

def manifestC3 : Json := Json.arr [tagRecord1, doc11Record]

def manifest99 : Json := Json.arr [doc99Record]

def tagInvoice : Tag := ⟨2, "invoice"⟩

/-- The spec's scenario document pk 10, as parsed. -/
def doc10 : Document :=
  ⟨10, "a.pdf", "a.pdf", ⟨1622505600⟩, some ⟨5, "Acme"⟩, [tagInvoice]⟩

/-- The spec's scenario document pk 11, as it would parse. -/
def docLegal : Document :=
  ⟨11, "b.pdf", "b.pdf", ⟨1640995200⟩, none, [⟨1, "legal"⟩]⟩

/-- A document with an empty tag set and no correspondent. -/
def docNoTags : Document :=
  ⟨12, "c.pdf", "c.pdf", ⟨0⟩, none, []⟩

/-- A table state holding only tag pk 2 (`invoice`), no correspondents. -/
def tablesInvoice : Tables := ⟨[(2, tagInvoice)], [], []⟩

/-! Helper lemmas. -/

theorem skip_name_iff (n : String) :
    (["fine", "legal", "private"].contains n || ends_with n "2") = true ↔
      (n = "fine" ∨ n = "legal" ∨ n = "private" ∨ ends_with n "2" = true) := by
  simp [or_assoc]

theorem canonical_ne_source (a : String) :
    path_from_root ["files", a] ≠ path_from_root [a] := by
  simp [path_from_root]

/-- Claim C1: `should_skip` is true iff some tag of the document is named
exactly `fine`, `legal` or `private`, or its name ends in `2`; and the
decision is a function of the document's tag name list alone. -/
theorem C1_classification (d : Document) :
    (shouldSkip d = true ↔
      ∃ t ∈ d.tags, t.name = "fine" ∨ t.name = "legal" ∨ t.name = "private"
        ∨ ends_with t.name "2" = true)
    ∧ (∀ d' : Document, tags_str d = tags_str d' → shouldSkip d = shouldSkip d') := by
  constructor
  · unfold shouldSkip tags_str
    rw [List.any_eq_true]
    constructor
    · rintro ⟨x, hx, hp⟩
      rw [List.mem_map] at hx
      obtain ⟨t, ht, rfl⟩ := hx
      exact ⟨t, ht, (skip_name_iff _).mp hp⟩
    · rintro ⟨t, ht, hp⟩
      exact ⟨t.name, List.mem_map_of_mem _ ht, (skip_name_iff _).mpr hp⟩
  · intro d' h
    unfold shouldSkip
    rw [h]

theorem C1_classification_witness : shouldSkip docLegal = true :=
  (C1_classification docLegal).1.mpr ⟨⟨1, "legal"⟩, List.Mem.head _, Or.inr (Or.inl rfl)⟩

/-- Claim C5: a missing manifest is not an error: the tables stay empty, no
document is processed, no copy and no skip happen, and the run performs
exactly the startup wipe plus the summary line `copied 0 files, 0 were
skipped.`. -/
theorem C5_missing_manifest :
    runTables none = Except.ok emptyTables
    ∧ processDocs emptyTables.documents = ([], 0, 0)
    ∧ run none =
        (wipeEffects ++ [Eff.printLine "copied 0 files, 0 were skipped."], Except.ok ()) :=
  ⟨rfl, rfl, rfl⟩

/-- Claim C3 (code bug): the spec's scenario record with a null
correspondent does NOT parse: the correspondent field is read with
`as_i64().expect(..)`, which panics on `Null`, so the whole run aborts
right after the startup wipe. -/
theorem C3_null_correspondent_aborts :
    parseManifest manifestC3 = Except.error "created has str value"
    ∧ run (some manifestC3) = (wipeEffects, Except.error "created has str value") :=
  ⟨rfl, rfl⟩

theorem get_eq_null_of_hasKey_false (r : Json) (k : String)
    (h : r.hasKey k = false) : r.get k = Json.null := by
  cases r with
  | obj entries =>
    have hfind : entries.find? (fun p => p.1 == k) = none := by
      apply List.find?_eq_none.mpr
      intro p hp
      simp only [Json.hasKey, List.any_eq_false] at h
      simpa using h p hp
    simp [Json.get, hfind]
  | null => rfl
  | bool b => rfl
  | num n => rfl
  | str s => rfl
  | arr l => rfl

theorem stepRecord_document_ok
    (ts : Tables) (r : Json) (pk cpk : Int) (flds : List (String × Json))
    (cj oj tj : Json) (cs : String) (dtf : DateTimeFixed) (refs : List Json)
    (fn : String) (tagList : List Tag)
    (hpk : (r.get "pk").as_i64 = some pk)
    (hflds : (r.get "fields").as_object = some flds)
    (hmodel : (r.get "model").as_str = some "documents.document")
    (hcr : findField flds "created" = some cj)
    (hcs : cj.as_str = some cs)
    (hdt : parse_from_rfc3339 cs = some dtf)
    (hco : findField flds "correspondent" = some oj)
    (hci : oj.as_i64 = some cpk)
    (htg : findField flds "tags" = some tj)
    (hta : tj.as_array = some refs)
    (hfn : (r.get "__exported_file_name__").as_str = some fn)
    (hres : resolveTags ts.tags refs = Except.ok tagList) :
    stepRecord ts r = Except.ok
      { ts with documents := (insertA pk
          { pk := pk, file_name := fn,
            archive_name := ((r.get "__exported_archive_name__").as_str).getD fn,
            created := dtf.toUtc,
            correspondent := lookupA ts.correspondents cpk,
            tags := tagList } ts.documents) } := by
  simp only [stepRecord, hpk, hflds, hmodel]
  rw [if_neg (by decide), if_neg (by decide)]
  rw [if_pos trivial]
  simp only [parseDocumentRecord, hcr, hcs, hdt, hco, hci, htg, hta, hfn, hres]

theorem stepRecord_document_err
    (ts : Tables) (r : Json) (pk cpk : Int) (flds : List (String × Json))
    (cj oj tj : Json) (cs : String) (dtf : DateTimeFixed) (refs : List Json)
    (fn : String) (e : String)
    (hpk : (r.get "pk").as_i64 = some pk)
    (hflds : (r.get "fields").as_object = some flds)
    (hmodel : (r.get "model").as_str = some "documents.document")
    (hcr : findField flds "created" = some cj)
    (hcs : cj.as_str = some cs)
    (hdt : parse_from_rfc3339 cs = some dtf)
    (hco : findField flds "correspondent" = some oj)
    (hci : oj.as_i64 = some cpk)
    (htg : findField flds "tags" = some tj)
    (hta : tj.as_array = some refs)
    (hfn : (r.get "__exported_file_name__").as_str = some fn)
    (hres : resolveTags ts.tags refs = Except.error e) :
    stepRecord ts r = Except.error e := by
  simp only [stepRecord, hpk, hflds, hmodel]
  rw [if_neg (by decide), if_neg (by decide)]
  rw [if_pos trivial]
  simp only [parseDocumentRecord, hcr, hcs, hdt, hco, hci, htg, hta, hfn, hres]

theorem resolveTags_error_of_missing (tags : List (Int × Tag)) (refs : List Json)
    (hnum : ∀ t ∈ refs, ∃ n : Int, t = Json.num n)
    (hmiss : ∃ n : Int, Json.num n ∈ refs ∧ lookupA tags n = none) :
    resolveTags tags refs = Except.error "tag lookup unwrap" := by
  induction refs with
  | nil => obtain ⟨n, hn, _⟩ := hmiss; cases hn
  | cons t rest ih =>
    obtain ⟨n0, hn0⟩ := hnum t (List.Mem.head _)
    subst hn0
    obtain ⟨n, hn, hnone⟩ := hmiss
    simp only [resolveTags, Json.as_i64]
    cases hl : lookupA tags n0 with
    | none => rfl
    | some tag =>
      have hrest : Json.num n ∈ rest := by
        rcases List.mem_cons.mp hn with heq | hmem
        · cases heq
          rw [hl] at hnone
          cases hnone
        · exact hmem
      rw [ih (fun t ht => hnum t (List.Mem.tail _ ht)) ⟨n, hrest, hnone⟩]

theorem parseSeq_append_ok (l₁ l₂ : List Json) (ts ts' : Tables)
    (h : parseSeq l₁ ts = Except.ok ts') :
    parseSeq (l₁ ++ l₂) ts = parseSeq l₂ ts' := by
  induction l₁ generalizing ts with
  | nil =>
    simp only [parseSeq] at h
    cases h
    rfl
  | cons x rest ih =>
    simp only [parseSeq, List.cons_append] at *
    cases hstep : stepRecord ts x with
    | error e => rw [hstep] at h; exact Except.noConfusion h
    | ok ts1 => rw [hstep] at h; exact ih ts1 h

theorem parseSeq_ok_mem (l : List Json) (ts ts' : Tables)
    (h : parseSeq l ts = Except.ok ts') (r : Json) (hr : r ∈ l) :
    ∃ s s' : Tables, stepRecord s r = Except.ok s' := by
  induction l generalizing ts with
  | nil => cases hr
  | cons x rest ih =>
    simp only [parseSeq] at h
    cases hstep : stepRecord ts x with
    | error e => rw [hstep] at h; exact Except.noConfusion h
    | ok ts1 =>
      rw [hstep] at h
      cases hr with
      | head => exact ⟨ts, ts1, hstep⟩
      | tail _ hr => exact ih ts1 h hr

/-- Claim C2: for a non-skipped document the planned effects are exactly the
canonical copy to `files/<archive_name>`, one link destination
`by_year/<year>/<archive_name>` (year of the created instant in UTC), one
link destination `by_correspondent/<name or dummy>/<archive_name>`, and one
`by_tag/<tag name>/<archive_name>` link per tag; every link's target is the
canonical destination `files/<archive_name>`, never the source path. -/
theorem C2_plan_destinations (d : Document) (h : shouldSkip d = false) :
    (processDoc d).1 =
      ([Eff.createDirAllParent (path_from_root ["files", d.archive_name]),
        Eff.createDirAllParent
          (path_from_root ["by_year", toString d.created.year, d.archive_name]),
        Eff.createDirAllParent
          (path_from_root ["by_correspondent",
            (d.correspondent.map Correspondent.name).getD "dummy", d.archive_name]),
        Eff.copyFile (path_from_root [d.archive_name])
          (path_from_root ["files", d.archive_name]),
        Eff.symlinkFile (path_from_root ["files", d.archive_name])
          (path_from_root ["by_year", toString d.created.year, d.archive_name]),
        Eff.symlinkFile (path_from_root ["files", d.archive_name])
          (path_from_root ["by_correspondent",
            (d.correspondent.map Correspondent.name).getD "dummy", d.archive_name])]
       ++ d.tags.flatMap (fun t =>
            [Eff.createDirAllParent (path_from_root ["by_tag", t.name, d.archive_name]),
             Eff.symlinkFile (path_from_root ["files", d.archive_name])
               (path_from_root ["by_tag", t.name, d.archive_name])]))
    ∧ (∀ tgt lnk, Eff.symlinkFile tgt lnk ∈ (processDoc d).1 →
        tgt = path_from_root ["files", d.archive_name]
        ∧ tgt ≠ path_from_root [d.archive_name]) := by
  refine ⟨by simp [processDoc, h], ?_⟩
  intro tgt lnk hmem
  have htgt : tgt = path_from_root ["files", d.archive_name] := by
    simp only [processDoc, h, Bool.false_eq_true, if_false, List.mem_append,
      List.mem_cons, List.mem_flatMap, List.mem_singleton, List.not_mem_nil,
      or_false] at hmem
    rcases hmem with ((h2 | h2 | h2 | h2 | h2 | h2) | ⟨_, _, (h2 | h2)⟩) <;>
      cases h2 <;> rfl
  exact ⟨htgt, htgt ▸ canonical_ne_source d.archive_name⟩

theorem C2_plan_destinations_witness :
    shouldSkip doc10 = false
    ∧ Eff.copyFile (path_from_root ["a.pdf"]) (path_from_root ["files", "a.pdf"])
        ∈ (processDoc doc10).1
    ∧ Eff.symlinkFile (path_from_root ["files", "a.pdf"])
        (path_from_root ["by_year", "2021", "a.pdf"]) ∈ (processDoc doc10).1 := by
  refine ⟨by decide, ?_, ?_⟩ <;>
    rw [(C2_plan_destinations doc10 (by decide)).1] <;> decide

theorem copyDests_append (l₁ l₂ : List Eff) :
    copyDests (l₁ ++ l₂) = copyDests l₁ ++ copyDests l₂ := by
  simp [copyDests]

theorem copyDests_flat_tags (a : String) (cp : List String) (l : List Tag) :
    copyDests (l.flatMap (fun t =>
      [Eff.createDirAllParent (path_from_root ["by_tag", t.name, a]),
       Eff.symlinkFile cp (path_from_root ["by_tag", t.name, a])])) = [] := by
  induction l with
  | nil => rfl
  | cons _ rest ih =>
    rw [List.flatMap_cons, copyDests_append, ih]
    rfl

theorem copyDests_processDoc (d : Document) (h : shouldSkip d = false) :
    copyDests (processDoc d).1 = [path_from_root ["files", d.archive_name]] := by
  simp only [processDoc, h, Bool.false_eq_true, if_false]
  rw [copyDests_append, copyDests_flat_tags]
  rfl

/-- Claim C4 counterexample: on a manifest whose only document references
the undefined tag pk 99, the run does abort with the tag-resolution error,
but the destination trees have already been mutated: the recursive removal
of the four destination trees happens before the manifest is even read. -/
theorem C4_no_mutation_counterexample :
    (run (some manifest99)).2 = Except.error "tag lookup unwrap"
    ∧ Eff.removeDirAll (root_dir ++ "\\" ++ "by_tag") ∈ (run (some manifest99)).1 := by
  constructor
  · rfl
  · have htr : (run (some manifest99)).1 = wipeEffects := rfl
    rw [htr]
    decide

/-- Claim C4 (amended): a document record whose tag references are integers
and reference a pk absent from the tag table at that point makes the run
abort with the tag-resolution error, before any copy, link, directory
creation or print is performed — but after the startup removal of the four
destination trees, which is the only filesystem activity of such a run. -/
theorem C4_abort_after_wipe
    (pre suf : List Json) (r : Json) (ts : Tables)
    (pk cpk : Int) (flds : List (String × Json))
    (cj oj tj : Json) (cs : String) (dtf : DateTimeFixed) (refs : List Json)
    (fn : String)
    (hpre : parseSeq pre emptyTables = Except.ok ts)
    (hpk : (r.get "pk").as_i64 = some pk)
    (hflds : (r.get "fields").as_object = some flds)
    (hmodel : (r.get "model").as_str = some "documents.document")
    (hcr : findField flds "created" = some cj)
    (hcs : cj.as_str = some cs)
    (hdt : parse_from_rfc3339 cs = some dtf)
    (hco : findField flds "correspondent" = some oj)
    (hci : oj.as_i64 = some cpk)
    (htg : findField flds "tags" = some tj)
    (hta : tj.as_array = some refs)
    (hfn : (r.get "__exported_file_name__").as_str = some fn)
    (hnum : ∀ t ∈ refs, ∃ n : Int, t = Json.num n)
    (hmiss : ∃ n : Int, Json.num n ∈ refs ∧ lookupA ts.tags n = none) :
    run (some (Json.arr (pre ++ r :: suf)))
      = (wipeEffects, Except.error "tag lookup unwrap")
    ∧ ∀ e ∈ (run (some (Json.arr (pre ++ r :: suf)))).1,
        ∃ p, e = Eff.removeDirAll p := by
  have hres := resolveTags_error_of_missing ts.tags refs hnum hmiss
  have hstep := stepRecord_document_err ts r pk cpk flds cj oj tj cs dtf refs fn _
    hpk hflds hmodel hcr hcs hdt hco hci htg hta hfn hres
  have hparse : parseManifest (Json.arr (pre ++ r :: suf))
      = Except.error "tag lookup unwrap" := by
    simp only [parseManifest, Json.as_array]
    rw [parseSeq_append_ok pre (r :: suf) emptyTables ts hpre]
    simp only [parseSeq, hstep]
  have hrun : run (some (Json.arr (pre ++ r :: suf)))
      = (wipeEffects, Except.error "tag lookup unwrap") := by
    simp only [run, runTables, hparse]
  refine ⟨hrun, ?_⟩
  intro e he
  rw [hrun] at he
  simp only [wipeEffects, List.mem_map] at he
  obtain ⟨kind, _, hk⟩ := he
  exact ⟨root_dir ++ "\\" ++ kind, hk.symm⟩

theorem C4_abort_after_wipe_witness :
    run (some manifest99) = (wipeEffects, Except.error "tag lookup unwrap") :=
  (C4_abort_after_wipe [] [] doc99Record emptyTables 10 5
    [("created", Json.str "2021-06-01T00:00:00Z"),
     ("correspondent", Json.num 5), ("tags", Json.arr [Json.num 99])]
    (Json.str "2021-06-01T00:00:00Z") (Json.num 5) (Json.arr [Json.num 99])
    "2021-06-01T00:00:00Z" ⟨1622505600, 0⟩ [Json.num 99] "a.pdf"
    rfl rfl rfl rfl rfl rfl rfl rfl rfl rfl rfl rfl
    (fun _ ht => ⟨99, List.mem_singleton.mp ht⟩)
    ⟨99, List.Mem.head _, rfl⟩).1

/-- Claim C6: a document record with no `__exported_archive_name__`
attribute parses with its archive name equal to its file name, and its
canonical copy destination is then `files/<file_name>`. -/
theorem C6_archive_name_default
    (ts : Tables) (r : Json) (pk cpk : Int) (flds : List (String × Json))
    (cj oj tj : Json) (cs : String) (dtf : DateTimeFixed) (refs : List Json)
    (fn : String) (tagList : List Tag)
    (hpk : (r.get "pk").as_i64 = some pk)
    (hflds : (r.get "fields").as_object = some flds)
    (hmodel : (r.get "model").as_str = some "documents.document")
    (hcr : findField flds "created" = some cj)
    (hcs : cj.as_str = some cs)
    (hdt : parse_from_rfc3339 cs = some dtf)
    (hco : findField flds "correspondent" = some oj)
    (hci : oj.as_i64 = some cpk)
    (htg : findField flds "tags" = some tj)
    (hta : tj.as_array = some refs)
    (hfn : (r.get "__exported_file_name__").as_str = some fn)
    (hres : resolveTags ts.tags refs = Except.ok tagList)
    (hnoarc : r.hasKey "__exported_archive_name__" = false) :
    stepRecord ts r = Except.ok
      { ts with documents := (insertA pk
          { pk := pk, file_name := fn, archive_name := fn,
            created := dtf.toUtc,
            correspondent := lookupA ts.correspondents cpk,
            tags := tagList } ts.documents) }
    ∧ (shouldSkip { pk := pk, file_name := fn, archive_name := fn,
                    created := dtf.toUtc,
                    correspondent := lookupA ts.correspondents cpk,
                    tags := tagList } = false →
        copyDests (processDoc { pk := pk, file_name := fn, archive_name := fn,
                                created := dtf.toUtc,
                                correspondent := lookupA ts.correspondents cpk,
                                tags := tagList }).1
          = [path_from_root ["files", fn]]) := by
  have harc : ((r.get "__exported_archive_name__").as_str).getD fn = fn := by
    rw [get_eq_null_of_hasKey_false r _ hnoarc]
    rfl
  constructor
  · have hok := stepRecord_document_ok ts r pk cpk flds cj oj tj cs dtf refs fn
      tagList hpk hflds hmodel hcr hcs hdt hco hci htg hta hfn hres
    rw [harc] at hok
    exact hok
  · intro hskip
    exact copyDests_processDoc _ hskip

theorem C6_archive_name_default_witness :
    stepRecord tablesInvoice doc10Record = Except.ok
      { tablesInvoice with documents := (insertA 10
          { pk := 10, file_name := "a.pdf", archive_name := "a.pdf",
            created := ⟨1622505600⟩, correspondent := none,
            tags := [tagInvoice] } tablesInvoice.documents) } :=
  (C6_archive_name_default tablesInvoice doc10Record 10 5
    [("created", Json.str "2021-06-01T00:00:00Z"),
     ("correspondent", Json.num 5), ("tags", Json.arr [Json.num 2])]
    (Json.str "2021-06-01T00:00:00Z") (Json.num 5) (Json.arr [Json.num 2])
    "2021-06-01T00:00:00Z" ⟨1622505600, 0⟩ [Json.num 2] "a.pdf" [tagInvoice]
    rfl rfl rfl rfl rfl rfl rfl rfl rfl rfl rfl rfl rfl).1

/-- Claim C7: a document record whose correspondent reference is an integer
pk absent from the correspondent table still parses, and the resulting
document has no correspondent (the miss is silently non-fatal, unlike tag
resolution). -/
theorem C7_correspondent_miss
    (ts : Tables) (r : Json) (pk cpk : Int) (flds : List (String × Json))
    (cj oj tj : Json) (cs : String) (dtf : DateTimeFixed) (refs : List Json)
    (fn : String) (tagList : List Tag)
    (hpk : (r.get "pk").as_i64 = some pk)
    (hflds : (r.get "fields").as_object = some flds)
    (hmodel : (r.get "model").as_str = some "documents.document")
    (hcr : findField flds "created" = some cj)
    (hcs : cj.as_str = some cs)
    (hdt : parse_from_rfc3339 cs = some dtf)
    (hco : findField flds "correspondent" = some oj)
    (hci : oj.as_i64 = some cpk)
    (htg : findField flds "tags" = some tj)
    (hta : tj.as_array = some refs)
    (hfn : (r.get "__exported_file_name__").as_str = some fn)
    (hres : resolveTags ts.tags refs = Except.ok tagList)
    (hmiss : lookupA ts.correspondents cpk = none) :
    stepRecord ts r = Except.ok
      { ts with documents := (insertA pk
          { pk := pk, file_name := fn,
            archive_name := ((r.get "__exported_archive_name__").as_str).getD fn,
            created := dtf.toUtc, correspondent := none,
            tags := tagList } ts.documents) } := by
  have hok := stepRecord_document_ok ts r pk cpk flds cj oj tj cs dtf refs fn
    tagList hpk hflds hmodel hcr hcs hdt hco hci htg hta hfn hres
  rw [hmiss] at hok
  exact hok

theorem C7_correspondent_miss_witness :
    stepRecord tablesInvoice doc10Record = Except.ok
      { tablesInvoice with documents := (insertA 10
          { pk := 10, file_name := "a.pdf",
            archive_name := ((doc10Record.get "__exported_archive_name__").as_str).getD "a.pdf",
            created := ⟨1622505600⟩, correspondent := none,
            tags := [tagInvoice] } tablesInvoice.documents) } :=
  C7_correspondent_miss tablesInvoice doc10Record 10 5
    [("created", Json.str "2021-06-01T00:00:00Z"),
     ("correspondent", Json.num 5), ("tags", Json.arr [Json.num 2])]
    (Json.str "2021-06-01T00:00:00Z") (Json.num 5) (Json.arr [Json.num 2])
    "2021-06-01T00:00:00Z" ⟨1622505600, 0⟩ [Json.num 2] "a.pdf" [tagInvoice]
    rfl rfl rfl rfl rfl rfl rfl rfl rfl rfl rfl rfl rfl

/-- Claim C8: a non-skipped document with an empty tag set gets exactly one
canonical copy, exactly one by-year link and exactly one by-correspondent
link (directory `dummy` when no correspondent resolved), and zero by-tag
links; a document with no tags is never skipped. -/
theorem C8_empty_tagset (d : Document) (h : d.tags = []) :
    shouldSkip d = false
    ∧ copyDests (processDoc d).1 = [path_from_root ["files", d.archive_name]]
    ∧ symlinkLinks (processDoc d).1 =
        [path_from_root ["by_year", toString d.created.year, d.archive_name],
         path_from_root ["by_correspondent",
           (d.correspondent.map Correspondent.name).getD "dummy", d.archive_name]]
    ∧ (d.correspondent = none →
        symlinkLinks (processDoc d).1 =
          [path_from_root ["by_year", toString d.created.year, d.archive_name],
           path_from_root ["by_correspondent", "dummy", d.archive_name]])
    ∧ (processDoc d).2 = (1, 0) := by
  have hskip : shouldSkip d = false := by simp [shouldSkip, tags_str, h]
  refine ⟨hskip, ?_, ?_, ?_, ?_⟩
  · exact copyDests_processDoc d hskip
  · simp [processDoc, hskip, h, symlinkLinks]
  · intro hc
    simp [processDoc, hskip, h, hc, symlinkLinks]
  · simp [processDoc, hskip]

theorem C8_empty_tagset_witness :
    shouldSkip docNoTags = false
    ∧ symlinkLinks (processDoc docNoTags).1 =
        [path_from_root ["by_year", "1970", "c.pdf"],
         path_from_root ["by_correspondent", "dummy", "c.pdf"]] := by
  refine ⟨(C8_empty_tagset docNoTags rfl).1, ?_⟩
  rw [(C8_empty_tagset docNoTags rfl).2.2.2.1 rfl]
  decide

theorem mem_keys_insertA {α : Type} (k : Int) (v : α) (l : List (Int × α)) (a : Int) :
    a ∈ (insertA k v l).map Prod.fst ↔ a = k ∨ a ∈ l.map Prod.fst := by
  induction l with
  | nil => simp [insertA]
  | cons p rest ih =>
    obtain ⟨k', v'⟩ := p
    by_cases hk : k = k'
    · subst hk
      simp only [insertA, eq_self_iff_true, if_true, List.map_cons, List.mem_cons]
      tauto
    · simp only [insertA, if_neg hk, List.map_cons, List.mem_cons, ih]
      tauto

theorem nodup_keys_insertA {α : Type} (k : Int) (v : α) (l : List (Int × α))
    (h : (l.map Prod.fst).Nodup) : ((insertA k v l).map Prod.fst).Nodup := by
  induction l with
  | nil => simp [insertA]
  | cons p rest ih =>
    obtain ⟨k', v'⟩ := p
    simp only [List.map_cons, List.nodup_cons] at h
    by_cases hk : k = k'
    · subst hk
      simp only [insertA, eq_self_iff_true, if_true, List.map_cons, List.nodup_cons]
      exact h
    · simp only [insertA, if_neg hk, List.map_cons, List.nodup_cons]
      refine ⟨?_, ih h.2⟩
      rw [mem_keys_insertA]
      rintro (h1 | h1)
      · exact hk h1.symm
      · exact h.1 h1

theorem stepRecord_wf (ts ts' : Tables) (r : Json) (hwf : TablesWF ts)
    (h : stepRecord ts r = Except.ok ts') : TablesWF ts' := by
  unfold stepRecord at h
  repeat' split at h
  all_goals first
    | exact Except.noConfusion h
    | (injection h with h2; subst h2;
       exact ⟨nodup_keys_insertA _ _ _ hwf.1, hwf.2.1, hwf.2.2⟩)
    | (injection h with h2; subst h2;
       exact ⟨hwf.1, nodup_keys_insertA _ _ _ hwf.2.1, hwf.2.2⟩)
    | (injection h with h2; subst h2;
       exact ⟨hwf.1, hwf.2.1, nodup_keys_insertA _ _ _ hwf.2.2⟩)
    | (injection h with h2; subst h2; exact hwf)

theorem parseSeq_wf (l : List Json) (ts ts' : Tables) (hwf : TablesWF ts)
    (h : parseSeq l ts = Except.ok ts') : TablesWF ts' := by
  induction l generalizing ts with
  | nil =>
    simp only [parseSeq] at h
    injection h with h2
    subst h2
    exact hwf
  | cons x rest ih =>
    simp only [parseSeq] at h
    cases hstep : stepRecord ts x with
    | error e => rw [hstep] at h; exact Except.noConfusion h
    | ok ts1 =>
      rw [hstep] at h
      exact ih ts1 (stepRecord_wf ts ts1 x hwf hstep) h

theorem runTables_wf (m : Option Json) (ts : Tables)
    (h : runTables m = Except.ok ts) : TablesWF ts := by
  cases m with
  | none =>
    simp only [runTables] at h
    injection h with h2
    subst h2
    exact ⟨List.nodup_nil, List.nodup_nil, List.nodup_nil⟩
  | some j =>
    simp only [runTables, parseManifest] at h
    cases ha : j.as_array with
    | none => rw [ha] at h; exact Except.noConfusion h
    | some l =>
      rw [ha] at h
      exact parseSeq_wf l emptyTables ts
        ⟨List.nodup_nil, List.nodup_nil, List.nodup_nil⟩ h

theorem processDocs_counts (l : List (Int × Document)) :
    (processDocs l).2.1 + (processDocs l).2.2 = l.length := by
  induction l with
  | nil => rfl
  | cons kv rest ih =>
    by_cases h : shouldSkip kv.2 = true
    · simp only [processDocs, processDoc, h, if_true, List.length_cons]
      omega
    · simp only [processDocs, processDoc, if_neg h, List.length_cons]
      omega

/-- Claim C9: every parsed document is processed and counted exactly once:
the copied and skipped counters sum to the number of distinct document pks
in the table, and the final print line reports exactly those two counters. -/
theorem C9_counts (m : Option Json) (ts : Tables) (h : runTables m = Except.ok ts) :
    (processDocs ts.documents).2.1 + (processDocs ts.documents).2.2
        = (ts.documents.map Prod.fst).dedup.length
    ∧ (ts.documents.map Prod.fst).Nodup
    ∧ run m =
        (wipeEffects ++ (processDocs ts.documents).1
          ++ [Eff.printLine (summaryLine (processDocs ts.documents).2.1
                (processDocs ts.documents).2.2)],
         Except.ok ()) := by
  have hnd : (ts.documents.map Prod.fst).Nodup := (runTables_wf m ts h).2.2
  refine ⟨?_, hnd, ?_⟩
  · rw [List.dedup_eq_self.mpr hnd, List.length_map]
    exact processDocs_counts _
  · simp only [run, h]

theorem C9_counts_witness :
    (processDocs emptyTables.documents).2.1 + (processDocs emptyTables.documents).2.2
        = (emptyTables.documents.map Prod.fst).dedup.length
    ∧ (emptyTables.documents.map Prod.fst).Nodup
    ∧ run none =
        (wipeEffects ++ (processDocs emptyTables.documents).1
          ++ [Eff.printLine (summaryLine (processDocs emptyTables.documents).2.1
                (processDocs emptyTables.documents).2.2)],
         Except.ok ()) :=
  C9_counts none emptyTables rfl

/-- Claim C10: every record must carry an integer `pk`, an object `fields`
and a string `model` — checked in that order, before the model discriminator
is consulted — or the parse aborts; a record with a valid triple but an
unrecognized model is ignored (tables unchanged). -/
theorem C10_record_shape :
    (∀ ts r, badTriple r → ∀ ts', stepRecord ts r ≠ Except.ok ts')
    ∧ (∀ ts r pk flds model,
        (r.get "pk").as_i64 = some pk →
        (r.get "fields").as_object = some flds →
        (r.get "model").as_str = some model →
        model ≠ "documents.tag" → model ≠ "documents.correspondent" →
        model ≠ "documents.document" → stepRecord ts r = Except.ok ts)
    ∧ (∀ j l, j.as_array = some l → (∃ r ∈ l, badTriple r) →
        ∀ ts', parseManifest j ≠ Except.ok ts') := by
  have part1 : ∀ ts r, badTriple r → ∀ ts', stepRecord ts r ≠ Except.ok ts' := by
    intro ts r hbad ts' contra
    unfold stepRecord at contra
    rcases hbad with hb | hb | hb
    · rw [hb] at contra
      exact Except.noConfusion contra
    · cases hpk : (r.get "pk").as_i64 with
      | none => rw [hpk] at contra; exact Except.noConfusion contra
      | some pk => rw [hpk, hb] at contra; exact Except.noConfusion contra
    · cases hpk : (r.get "pk").as_i64 with
      | none => rw [hpk] at contra; exact Except.noConfusion contra
      | some pk =>
        cases hfl : (r.get "fields").as_object with
        | none => rw [hpk, hfl] at contra; exact Except.noConfusion contra
        | some flds =>
          rw [hpk, hfl, hb] at contra
          exact Except.noConfusion contra
  refine ⟨part1, ?_, ?_⟩
  · intro ts r pk flds model hpk hflds hmodel h1 h2 h3
    simp only [stepRecord, hpk, hflds, hmodel]
    rw [if_neg h1, if_neg h2, if_neg h3]
  · intro j l ha hex ts' contra
    simp only [parseManifest, ha] at contra
    obtain ⟨r, hr, hbad⟩ := hex
    obtain ⟨s, s', hstep⟩ := parseSeq_ok_mem l emptyTables ts' contra r hr
    exact part1 s r hbad s' hstep

theorem C10_record_shape_witness :
    stepRecord emptyTables (Json.obj [("model", Json.str "documents.note")])
        ≠ Except.ok emptyTables
    ∧ stepRecord emptyTables
        (Json.obj [("pk", Json.num 7), ("fields", Json.obj []),
                   ("model", Json.str "documents.note")]) = Except.ok emptyTables :=
  ⟨C10_record_shape.1 emptyTables (Json.obj [("model", Json.str "documents.note")])
     (Or.inl rfl) emptyTables,
   C10_record_shape.2.1 emptyTables _ 7 [] "documents.note" rfl rfl rfl
     (by decide) (by decide) (by decide)⟩

end Paperless
